import Mathlib

/-!
Verification development for the `norse-physical-device` crate
(`src/properties.rs`, `src/device.rs`, `src/lib.rs`).

The Rust source is shallowly embedded: every 32-bit register value is a
`Nat`, and each place where the Rust code performs wrapping machine
arithmetic is made explicit with `% u32Mod` (release-profile semantics:
overflowing integer operations wrap, shift amounts are masked by the
bit width).  Fallible steps (the Windows buffer-length assertion and the
division by the physical-core count) are modelled with `Option`, where
`none` stands for an abort.
-/

/-- Modulus of the 32-bit unsigned machine integers (`u32`). -/
def u32Mod : Nat := 4294967296

/-- Modulus of the 64-bit unsigned machine integers (`usize`, `ULONG_PTR`). -/
def u64Mod : Nat := 18446744073709551616

/-- Embedding of `extract_bits` from `PhysicalDeviceProperties::system`:

    fn extract_bits(v: u32, bits: Range<u8>) -> u32 {
        let num_bits = bits.end - bits.start;
        let mask = (1 << num_bits) - 1;
        (v >> bits.start) & mask
    }

`bits.end - bits.start` is a `u8` subtraction (wraps modulo 256) and both
shifts are `u32` shifts whose amount is masked modulo 32 under release
semantics; the embedding reproduces exactly that. -/
def extract_bits (v : Nat) (start stop : Nat) : Nat :=
  let num_bits := (256 + stop - start) % 256
  let mask := (1 <<< (num_bits % 32)) - 1
  (v >>> (start % 32)) &&& mask

/-- Embedding of `PhysicalDeviceCacheProperties` (size and line size in
bytes, `0` meaning the information could not be retrieved). -/
structure PhysicalDeviceCacheProperties where
  size : Nat
  line_size : Nat
  deriving DecidableEq

/-- Embedding of `Vendor`. -/
inductive Vendor where
  | Intel
  | AMD
  | Unknown
  deriving DecidableEq

/-- One cpuid result: the four 32-bit result registers. -/
structure RawQueryResult where
  eax : Nat
  ebx : Nat
  ecx : Nat
  edx : Nat
  deriving DecidableEq

/-- The four little-endian bytes of a 32-bit register, in memory order.
This is both the `transmute::<_, [u8; 4]>` in `system_cpuid_vendor`
(x86 is little-endian) and the `extract` closure of the device-name
decoding. -/
def le4 (v : Nat) : List Nat :=
  [v &&& 255, (v >>> 8) &&& 255, (v >>> 16) &&& 255, (v >>> 24) &&& 255]

/-- The byte signature `b"AuthenticAMD"`. -/
def sigAMD : List Nat := "AuthenticAMD".data.map Char.toNat

/-- The byte signature `b"GenuineIntel"`. -/
def sigIntel : List Nat := "GenuineIntel".data.map Char.toNat

/-- The 12-byte brand buffer of `system_cpuid_vendor`: bytes of `ebx`,
then `edx`, then `ecx` of the leaf-0 result. -/
def vendorBytes (ebx edx ecx : Nat) : List Nat := le4 ebx ++ le4 edx ++ le4 ecx

/-- Embedding of `system_cpuid_vendor`: match the 12-byte brand buffer
against the two known signatures. -/
def decodeVendor (ebx edx ecx : Nat) : Vendor :=
  if vendorBytes ebx edx ecx = sigAMD then Vendor.AMD
  else if vendorBytes ebx edx ecx = sigIntel then Vendor.Intel
  else Vendor.Unknown

/-- The four per-level cache slots assembled by `PhysicalDeviceProperties::system`,
with the local variable names of the source. -/
structure CacheSet where
  l1_cache_data : PhysicalDeviceCacheProperties
  l1_cache_instruction : PhysicalDeviceCacheProperties
  l2_cache : PhysicalDeviceCacheProperties
  l3_cache : PhysicalDeviceCacheProperties
  deriving DecidableEq

/-- The `Default` instances: every slot is the all-zero sentinel. -/
def initCacheSet : CacheSet :=
  { l1_cache_data := ⟨0, 0⟩
    l1_cache_instruction := ⟨0, 0⟩
    l2_cache := ⟨0, 0⟩
    l3_cache := ⟨0, 0⟩ }

/-- Embedding of the AMD fixed-leaf decoding in `system` (non-Windows):
`leaf5` is the `cpuid(0x80000005)` result, `leaf6` the `cpuid(0x80000006)`
result.  The size products are `u32` multiplications; only the L3 product
can actually exceed 32 bits, and there it wraps. -/
def amdDecode (leaf5 leaf6 : RawQueryResult) : CacheSet :=
  { l1_cache_instruction :=
      { size := (extract_bits leaf5.edx 24 32 * 1024) % u32Mod
        line_size := extract_bits leaf5.edx 0 8 }
    l1_cache_data :=
      { size := (extract_bits leaf5.ecx 24 32 * 1024) % u32Mod
        line_size := extract_bits leaf5.ecx 0 8 }
    l2_cache :=
      { size := (extract_bits leaf6.ecx 16 32 * 1024) % u32Mod
        line_size := extract_bits leaf6.ecx 0 8 }
    l3_cache :=
      { size := (extract_bits leaf6.edx 18 32 * 512 * 1024) % u32Mod
        line_size := extract_bits leaf6.edx 0 8 } }

/-- Embedding of the decoding of one Intel leaf-4 sub-leaf result into a
`PhysicalDeviceCacheProperties` value (`system`, Intel arm of the match):
`num_sets` is `cache.ecx + 1` in `u32` arithmetic, and the size product is
a `u32` product, so both are reduced modulo `2 ^ 32`. -/
def intelDecodeRecord (r : RawQueryResult) : PhysicalDeviceCacheProperties :=
  let line_size := extract_bits r.ebx 0 12 + 1
  let partitions := extract_bits r.ebx 12 22 + 1
  let associativity := extract_bits r.ebx 22 32 + 1
  let num_sets := (r.ecx + 1) % u32Mod
  { size := (line_size * partitions * associativity * num_sets) % u32Mod
    line_size := line_size }

/-- One committed step of the Intel leaf-4 walk: route the decoded record
to the slot selected by `(ty, level)`; any other combination stores
nothing (`_ => continue`). -/
def intelCommit (s : CacheSet) (r : RawQueryResult) : CacheSet :=
  let ty := extract_bits r.eax 0 5
  let level := extract_bits r.eax 5 8
  let properties := intelDecodeRecord r
  if ty = 1 ∧ level = 1 then { s with l1_cache_data := properties }
  else if ty = 2 ∧ level = 1 then { s with l1_cache_instruction := properties }
  else if ty = 3 ∧ level = 2 then { s with l2_cache := properties }
  else if ty = 3 ∧ level = 3 then { s with l3_cache := properties }
  else s

/-- Embedding of the Intel leaf-4 enumeration loop.  The list holds the
scripted `cpuid_count(4, i)` results for `i = 0, 1, 2, ...`; the loop
stops at the first result whose low five bits are zero and otherwise
commits the record and moves to the next sub-leaf. -/
def intelWalk : List RawQueryResult → CacheSet → CacheSet
  | [], s => s
  | r :: rest, s =>
    if extract_bits r.eax 0 5 = 0 then s
    else intelWalk rest (intelCommit s r)

/-- Bytes of an AMD device-name leaf in push order: `eax`, `ebx`, `ecx`,
`edx`, each split into its four little-endian bytes. -/
def leafChars (r : RawQueryResult) : List Nat :=
  le4 r.eax ++ le4 r.ebx ++ le4 r.ecx ++ le4 r.edx

/-- The `break 'name` on the first NUL byte: keep bytes strictly before
the first zero. -/
def takeUntilNull : List Nat → List Nat
  | [] => []
  | b :: rest => if b = 0 then [] else b :: takeUntilNull rest

/-- Whitespace test of `str::trim_end` restricted to the byte range the
name decoding can produce (each byte becomes the `char` with the same
code point, so only the Latin-1 white-space code points can occur). -/
def isWhitespaceByte (b : Nat) : Bool :=
  b == 9 || b == 10 || b == 11 || b == 12 || b == 13 || b == 32 || b == 133 || b == 160

/-- The `name.trim_end()` call: drop trailing whitespace bytes. -/
def trimEnd (cs : List Nat) : List Nat :=
  (cs.reverse.dropWhile isWhitespaceByte).reverse

/-- Embedding of the AMD device-name decoding in `system_cpuid_vendor_device`:
leaves `0x80000002..=0x80000004`, byte stream truncated at the first NUL,
trailing whitespace trimmed. -/
def amdDeviceName (r2 r3 r4 : RawQueryResult) : List Nat :=
  trimEnd (takeUntilNull (leafChars r2 ++ leafChars r3 ++ leafChars r4))

/-- Scripted cpuid responses consumed by one discovery run (the injected
query port): the leaf-0 result, the two AMD cache leaves, the three AMD
device-name leaves, and the Intel leaf-4 sub-leaf results in sub-leaf
order. -/
structure QueryPort where
  leaf0 : RawQueryResult
  amdL1 : RawQueryResult
  amdL2L3 : RawQueryResult
  name2 : RawQueryResult
  name3 : RawQueryResult
  name4 : RawQueryResult
  leaf4 : List RawQueryResult
  deriving DecidableEq

/-- The vendor-dependent part of the discovery result on the cpuid
(non-Windows) path: vendor tag, device-name bytes, four cache slots. -/
structure SystemResult where
  vendor : Vendor
  device : List Nat
  caches : CacheSet
  deriving DecidableEq

/-- Embedding of the cpuid path of `PhysicalDeviceProperties::system`
composed with `system_cpuid_vendor_device`: identify the vendor from
leaf 0, decode the device name only for AMD, and dispatch to the matching
cache decoder (the Unknown arm yields the four default records).
The source text of the non-Windows `system` body has two evident slips
(it destructures `system_cpuid_vendor()` as a pair and the AMD arm yields
a five-tuple mentioning a `name` binding that is not in scope); the
composition follows the Windows arm, where the same pair is obtained from
`system_cpuid_vendor_device()`. -/
def systemModel (qp : QueryPort) : SystemResult :=
  let vendor := decodeVendor qp.leaf0.ebx qp.leaf0.edx qp.leaf0.ecx
  { vendor := vendor
    device :=
      match vendor with
      | Vendor.AMD => amdDeviceName qp.name2 qp.name3 qp.name4
      | _ => []
    caches :=
      match vendor with
      | Vendor.AMD => amdDecode qp.amdL1 qp.amdL2L3
      | Vendor.Intel => intelWalk qp.leaf4 initCacheSet
      | Vendor.Unknown => initCacheSet }

/-- Population count of a 64-bit affinity mask
(`info.ProcessorMask.count_ones()`). -/
def popCount (mask : Nat) : Nat :=
  (List.range 64).foldl (fun a i => a + mask / 2 ^ i % 2) 0

/-- Embedding of the Windows `PROCESSOR_CACHE_TYPE` values the decoder
distinguishes. -/
inductive WinCacheType where
  | unified
  | instruction
  | data
  | trace
  deriving DecidableEq

/-- Embedding of one `SYSTEM_LOGICAL_PROCESSOR_INFORMATION` relationship
record: the relationship kind with the fields the decoder reads
(`ProcessorMask` for packages; level, type, `Size` and `LineSize` for
cache records).  `other` covers every remaining relationship kind. -/
inductive TopologyRecord where
  | processorCore
  | processorPackage (mask : Nat)
  | cache (level : Nat) (ty : WinCacheType) (size : Nat) (lineSize : Nat)
  | other
  deriving DecidableEq

/-- Names for the four output slots. -/
inductive Slot where
  | l1d
  | l1i
  | l2
  | l3
  deriving DecidableEq

/-- The slot selection of the Windows cache match:
`(1, CacheInstruction)`, `(1, CacheData)`, `(2, CacheUnified)`,
`(3, CacheUnified)`; every other combination hits `_ => continue`. -/
def cacheSlot (level : Nat) (ty : WinCacheType) : Option Slot :=
  if level = 1 ∧ ty = WinCacheType.instruction then some Slot.l1i
  else if level = 1 ∧ ty = WinCacheType.data then some Slot.l1d
  else if level = 2 ∧ ty = WinCacheType.unified then some Slot.l2
  else if level = 3 ∧ ty = WinCacheType.unified then some Slot.l3
  else none

/-- The accumulators of the Windows walk: `physical_cores` is a `u32`,
`logical_cores` a `usize`, plus the four cache slots. -/
structure TopoState where
  physical_cores : Nat
  logical_cores : Nat
  caches : CacheSet
  deriving DecidableEq

/-- All accumulators start at zero. -/
def initTopoState : TopoState := ⟨0, 0, initCacheSet⟩

/-- One iteration of the `for info in infos` loop of the Windows `system`:
count a physical core, add the popcount of a package mask to the logical
count, or fold a cache record into its slot (`size` accumulates with `+=`,
`line_size` is overwritten). -/
def topoStep (s : TopoState) (r : TopologyRecord) : TopoState :=
  match r with
  | TopologyRecord.processorCore =>
    { s with physical_cores := (s.physical_cores + 1) % u32Mod }
  | TopologyRecord.processorPackage mask =>
    { s with logical_cores := (s.logical_cores + popCount mask) % u64Mod }
  | TopologyRecord.cache level ty size lineSize =>
    match cacheSlot level ty with
    | some Slot.l1i =>
      { s with caches := { s.caches with l1_cache_instruction :=
          ⟨(s.caches.l1_cache_instruction.size + size) % u32Mod, lineSize⟩ } }
    | some Slot.l1d =>
      { s with caches := { s.caches with l1_cache_data :=
          ⟨(s.caches.l1_cache_data.size + size) % u32Mod, lineSize⟩ } }
    | some Slot.l2 =>
      { s with caches := { s.caches with l2_cache :=
          ⟨(s.caches.l2_cache.size + size) % u32Mod, lineSize⟩ } }
    | some Slot.l3 =>
      { s with caches := { s.caches with l3_cache :=
          ⟨(s.caches.l3_cache.size + size) % u32Mod, lineSize⟩ } }
    | none => s
  | TopologyRecord.other => s

/-- The whole record walk. -/
def topoWalk (rs : List TopologyRecord) : TopoState :=
  List.foldl topoStep initTopoState rs

/-- Embedding of the Windows normalization: walk the records, then divide
the L1-instruction, L1-data and L2 sizes (not L3) by the physical-core
count.  The division is an unguarded `u32` division in the source; a zero
physical-core count aborts the process, modelled as `none`. -/
def normalizeTopology (rs : List TopologyRecord) : Option TopoState :=
  let s := topoWalk rs
  if s.physical_cores = 0 then none
  else some { s with caches := { s.caches with
    l1_cache_instruction := { s.caches.l1_cache_instruction with
      size := s.caches.l1_cache_instruction.size / s.physical_cores }
    l1_cache_data := { s.caches.l1_cache_data with
      size := s.caches.l1_cache_data.size / s.physical_cores }
    l2_cache := { s.caches.l2_cache with
      size := s.caches.l2_cache.size / s.physical_cores } } }

/-- Embedding of the topology part of the Windows `system` entry:
the two-phase buffer query reports `length` bytes, the source asserts
`length % info_size == 0` (an abort, modelled as `none`) before decoding
the `length / info_size` records and normalizing them. -/
def windowsSystem (length infoSize : Nat) (rs : List TopologyRecord) : Option TopoState :=
  if length % infoSize = 0 then normalizeTopology rs else none

/-- Specification-side count of `RelationProcessorCore` records. -/
def coreCount : List TopologyRecord → Nat
  | [] => 0
  | TopologyRecord.processorCore :: rest => coreCount rest + 1
  | _ :: rest => coreCount rest

/-- Specification-side sum of the package-mask popcounts. -/
def popSum : List TopologyRecord → Nat
  | [] => 0
  | TopologyRecord.processorPackage mask :: rest => popCount mask + popSum rest
  | _ :: rest => popSum rest

/-- Specification-side sum of the cache sizes routed to slot `k`. -/
def sumSlot (k : Slot) : List TopologyRecord → Nat
  | [] => 0
  | TopologyRecord.cache level ty size _ :: rest =>
    (if cacheSlot level ty = some k then size else 0) + sumSlot k rest
  | _ :: rest => sumSlot k rest

/-- Specification-side last-seen line size routed to slot `k`, with
default `d` when no record matches. -/
def lastLine (k : Slot) (d : Nat) : List TopologyRecord → Nat
  | [] => d
  | TopologyRecord.cache level ty _ lineSize :: rest =>
    lastLine k (if cacheSlot level ty = some k then lineSize else d) rest
  | _ :: rest => lastLine k d rest

/-- Projection of the slot named `k` out of a `CacheSet`. -/
def slotOf (k : Slot) (c : CacheSet) : PhysicalDeviceCacheProperties :=
  match k with
  | Slot.l1d => c.l1_cache_data
  | Slot.l1i => c.l1_cache_instruction
  | Slot.l2 => c.l2_cache
  | Slot.l3 => c.l3_cache

/-- A slot that is either the zero sentinel or has a positive line size. -/
def goodSlot (c : PhysicalDeviceCacheProperties) : Prop :=
  c = ⟨0, 0⟩ ∨ 0 < c.line_size

/-- All four slots satisfy `goodSlot`. -/
def goodSet (s : CacheSet) : Prop :=
  goodSlot s.l1_cache_data ∧ goodSlot s.l1_cache_instruction ∧
  goodSlot s.l2_cache ∧ goodSlot s.l3_cache

theorem u32Mod_pos : 0 < u32Mod := by norm_num [u32Mod]

/-- C1: the spec demands that `extract_bits` return
`(value >> start) & ((1 << (end-start)) - 1)` in arbitrary-precision
arithmetic for every valid range, including `end - start == 32`.  The
source computes the naive `(1u32 << 32) - 1` there, which overflows the
32-bit accumulator: under release semantics the shift amount is masked to
zero, the mask collapses to `0`, and the extractor silently returns `0`
for every input value instead of the full 32-bit field. -/
theorem C1_extract_bits_width32 :
    (∀ v : Nat, extract_bits v 0 32 = 0) ∧
    extract_bits 4294967295 0 32 ≠ 4294967295 >>> 0 &&& (2 ^ 32 - 1) := by
  constructor
  · intro v
    show (v >>> (0 % 32)) &&& ((1 <<< (((256 + 32 - 0) % 256) % 32)) - 1) = 0
    simp
  · decide

/-- C6: the leaf-0 registers holding `"GenuineIntel"` in the order
`ebx`, `edx`, `ecx` decode to `Intel`, the `"AuthenticAMD"` registers
decode to `AMD`, and every 12-byte buffer differing from both signatures
decodes to `Unknown`. -/
theorem C6_vendor_identifier :
    decodeVendor 0x756e6547 0x49656e69 0x6c65746e = Vendor.Intel ∧
    decodeVendor 0x68747541 0x69746e65 0x444d4163 = Vendor.AMD ∧
    ∀ ebx edx ecx : Nat, vendorBytes ebx edx ecx ≠ sigIntel →
      vendorBytes ebx edx ecx ≠ sigAMD → decodeVendor ebx edx ecx = Vendor.Unknown := by
  refine ⟨by decide, by decide, ?_⟩
  intro ebx edx ecx hI hA
  unfold decodeVendor
  rw [if_neg hA, if_neg hI]

/-- Witness for C6 at the all-zero buffer. -/
theorem C6_vendor_identifier_witness : decodeVendor 0 0 0 = Vendor.Unknown :=
  C6_vendor_identifier.2.2 0 0 0 (by decide) (by decide)

/-- C7: whenever the leaf-0 registers decode to the `Unknown` vendor, the
discovery result carries the four zero-sentinel cache records and an
empty device name, whatever the other scripted query results are. -/
theorem C7_unknown_vendor (qp : QueryPort)
    (h : decodeVendor qp.leaf0.ebx qp.leaf0.edx qp.leaf0.ecx = Vendor.Unknown) :
    (systemModel qp).caches = initCacheSet ∧ (systemModel qp).device = [] := by
  unfold systemModel
  rw [h]
  exact ⟨rfl, rfl⟩

/-- Witness for C7 at the all-zero query port. -/
theorem C7_unknown_vendor_witness :
    (systemModel ⟨⟨0, 0, 0, 0⟩, ⟨0, 0, 0, 0⟩, ⟨0, 0, 0, 0⟩, ⟨0, 0, 0, 0⟩,
      ⟨0, 0, 0, 0⟩, ⟨0, 0, 0, 0⟩, []⟩).caches = initCacheSet ∧
    (systemModel ⟨⟨0, 0, 0, 0⟩, ⟨0, 0, 0, 0⟩, ⟨0, 0, 0, 0⟩, ⟨0, 0, 0, 0⟩,
      ⟨0, 0, 0, 0⟩, ⟨0, 0, 0, 0⟩, []⟩).device = [] :=
  C7_unknown_vendor _ (by decide)

theorem extract_byte_le (x : Nat) : extract_bits x 24 32 ≤ 255 := by
  show (x >>> (24 % 32)) &&& ((1 <<< (((256 + 32 - 24) % 256) % 32)) - 1) ≤ 255
  rw [show ((1 : Nat) <<< (((256 + 32 - 24) % 256) % 32)) - 1 = 255 from by decide]
  exact Nat.and_le_right

/-- C3: the synthetic leaf-`0x80000005` result with
`ecx = (0x20 << 24) | 0x40` and `edx = (0x10 << 24) | 0x20` decodes to the
L1-data record `{32 KiB, 0x40}` and the L1-instruction record
`{16 KiB, 0x20}`; in general both L1 size fields are the top register
byte scaled by 1 KiB, and the L3 size field of leaf `0x80000006` is
scaled by 512 KiB (as a 32-bit product). -/
theorem C3_amd_decode :
    (∀ (a b : Nat) (leaf6 : RawQueryResult),
      (amdDecode ⟨a, b, 0x20000040, 0x10000020⟩ leaf6).l1_cache_data = ⟨32 * 1024, 0x40⟩ ∧
      (amdDecode ⟨a, b, 0x20000040, 0x10000020⟩ leaf6).l1_cache_instruction = ⟨16 * 1024, 0x20⟩) ∧
    (∀ leaf5 leaf6 : RawQueryResult,
      (amdDecode leaf5 leaf6).l1_cache_data.size = extract_bits leaf5.ecx 24 32 * 1024 ∧
      (amdDecode leaf5 leaf6).l1_cache_instruction.size = extract_bits leaf5.edx 24 32 * 1024 ∧
      (amdDecode leaf5 leaf6).l3_cache.size =
        (extract_bits leaf6.edx 18 32 * 512 * 1024) % u32Mod) := by
  constructor
  · intro a b leaf6
    constructor <;> (simp only [amdDecode]; decide)
  · intro leaf5 leaf6
    refine ⟨?_, ?_, ?_⟩
    · simp only [amdDecode]
      have h := extract_byte_le leaf5.ecx
      refine Nat.mod_eq_of_lt ?_
      simp only [u32Mod]
      omega
    · simp only [amdDecode]
      have h := extract_byte_le leaf5.edx
      refine Nat.mod_eq_of_lt ?_
      simp only [u32Mod]
      omega
    · simp only [amdDecode]

/-- C10: the Intel record decoding works in 32-bit modular arithmetic:
the register triple with `ecx = 2 ^ 32 - 1` yields `num_sets = 0` and a
stored record `{size := 0, line_size := 1}`; in general the stored size
is bounded by `2 ^ 32` and congruent modulo `2 ^ 32` to the mathematical
product `line_size * partitions * associativity * (ecx + 1)`, from which
it differs for some register inputs. -/
theorem C10_intel_modular_size :
    intelDecodeRecord ⟨33, 0, 4294967295, 0⟩ = ⟨0, 1⟩ ∧
    (∀ r : RawQueryResult,
      (intelDecodeRecord r).size < u32Mod ∧
      (extract_bits r.ebx 0 12 + 1) * (extract_bits r.ebx 12 22 + 1) *
        (extract_bits r.ebx 22 32 + 1) * (r.ecx + 1) ≡
        (intelDecodeRecord r).size [MOD u32Mod]) ∧
    (∃ r : RawQueryResult,
      (intelDecodeRecord r).size ≠
        (extract_bits r.ebx 0 12 + 1) * (extract_bits r.ebx 12 22 + 1) *
        (extract_bits r.ebx 22 32 + 1) * (r.ecx + 1)) := by
  refine ⟨by decide, ?_, ⟨⟨33, 0, 4294967295, 0⟩, by decide⟩⟩
  intro r
  constructor
  · exact Nat.mod_lt _ u32Mod_pos
  · exact ((Nat.mod_modEq _ _).trans
      (Nat.ModEq.mul_left _ (Nat.mod_modEq _ _))).symm

/-- C5: on the scripted leaf-4 sequence whose first sub-leaf carries
`(type = 1, level = 1)` and whose second sub-leaf carries the type-0
terminator, the walk commits exactly one record (to the L1-data slot) and
never consults a third sub-leaf: the result is the same for every
continuation of the script. -/
theorem C5_intel_walk_terminator :
    ∀ (junk : List RawQueryResult) (b c d : Nat),
      intelWalk (⟨33, 0, 0, 0⟩ :: ⟨0, b, c, d⟩ :: junk) initCacheSet =
        { initCacheSet with l1_cache_data := ⟨1, 1⟩ } := by
  intro junk b c d
  simp only [intelWalk]
  rw [if_neg (by decide : ¬ extract_bits 33 0 5 = 0),
    if_pos (by decide : extract_bits 0 0 5 = 0)]
  decide

/-- C2 counterexample: a leaf-4 record with `(type = 1, level = 1)`,
`ebx = 0` and `ecx = 2 ^ 32 - 1` stores an L1-data size of `0`, while the
claimed product `line_size * partitions * associativity * (ecx + 1)` is
`2 ^ 32`: the stored size does not equal the product computed without the
32-bit reduction. -/
theorem C2_size_wrap_counterexample :
    extract_bits (33 : Nat) 0 5 = 1 ∧ extract_bits (33 : Nat) 5 8 = 1 ∧
    (intelCommit initCacheSet ⟨33, 0, 4294967295, 0⟩).l1_cache_data.size = 0 ∧
    (extract_bits (0 : Nat) 0 12 + 1) * (extract_bits (0 : Nat) 12 22 + 1) *
      (extract_bits (0 : Nat) 22 32 + 1) * (4294967295 + 1) = 4294967296 := by
  decide

/-- C2 (amended): the record decodes with `line_size` from bits 0-12 of
`ebx` plus 1, and stores the size
`line_size * partitions * associativity * num_sets` computed in 32-bit
arithmetic (`num_sets = (ecx + 1) mod 2 ^ 32`, product reduced
`mod 2 ^ 32`); the `(type, level)` pairs `(1,1)`, `(2,1)`, `(3,2)`,
`(3,3)` overwrite exactly the L1-data, L1-instruction, L2 and L3 slot
respectively (last-seen-wins, the prior value is discarded), and every
other combination leaves the whole state unchanged. -/
theorem C2_intel_commit (r : RawQueryResult) (s : CacheSet) :
    ((intelDecodeRecord r).line_size = extract_bits r.ebx 0 12 + 1 ∧
     (intelDecodeRecord r).size =
       ((extract_bits r.ebx 0 12 + 1) * (extract_bits r.ebx 12 22 + 1) *
        (extract_bits r.ebx 22 32 + 1) * ((r.ecx + 1) % u32Mod)) % u32Mod) ∧
    (extract_bits r.eax 0 5 = 1 → extract_bits r.eax 5 8 = 1 →
      intelCommit s r = { s with l1_cache_data := intelDecodeRecord r }) ∧
    (extract_bits r.eax 0 5 = 2 → extract_bits r.eax 5 8 = 1 →
      intelCommit s r = { s with l1_cache_instruction := intelDecodeRecord r }) ∧
    (extract_bits r.eax 0 5 = 3 → extract_bits r.eax 5 8 = 2 →
      intelCommit s r = { s with l2_cache := intelDecodeRecord r }) ∧
    (extract_bits r.eax 0 5 = 3 → extract_bits r.eax 5 8 = 3 →
      intelCommit s r = { s with l3_cache := intelDecodeRecord r }) ∧
    (¬(extract_bits r.eax 0 5 = 1 ∧ extract_bits r.eax 5 8 = 1) →
     ¬(extract_bits r.eax 0 5 = 2 ∧ extract_bits r.eax 5 8 = 1) →
     ¬(extract_bits r.eax 0 5 = 3 ∧ extract_bits r.eax 5 8 = 2) →
     ¬(extract_bits r.eax 0 5 = 3 ∧ extract_bits r.eax 5 8 = 3) →
      intelCommit s r = s) := by
  refine ⟨⟨rfl, rfl⟩, ?_, ?_, ?_, ?_, ?_⟩
  · intro h1 h2
    unfold intelCommit
    rw [if_pos ⟨h1, h2⟩]
  · intro h1 h2
    unfold intelCommit
    rw [if_neg (by simp [h1]), if_pos ⟨h1, h2⟩]
  · intro h1 h2
    unfold intelCommit
    rw [if_neg (by simp [h1]), if_neg (by simp [h1]), if_pos ⟨h1, h2⟩]
  · intro h1 h2
    unfold intelCommit
    rw [if_neg (by simp [h1]), if_neg (by simp [h1]), if_neg (by simp [h2]),
      if_pos ⟨h1, h2⟩]
  · intro h1 h2 h3 h4
    unfold intelCommit
    rw [if_neg h1, if_neg h2, if_neg h3, if_neg h4]

/-- Witness for C2 (amended): a `(1,1)` record lands in the L1-data slot
and a `(9,0)` record is ignored. -/
theorem C2_intel_commit_witness :
    intelCommit initCacheSet ⟨33, 0, 0, 0⟩ =
      { initCacheSet with l1_cache_data := intelDecodeRecord ⟨33, 0, 0, 0⟩ } ∧
    intelCommit initCacheSet ⟨9, 0, 0, 0⟩ = initCacheSet :=
  ⟨(C2_intel_commit ⟨33, 0, 0, 0⟩ initCacheSet).2.1 (by decide) (by decide),
   (C2_intel_commit ⟨9, 0, 0, 0⟩ initCacheSet).2.2.2.2.2
     (by decide) (by decide) (by decide) (by decide)⟩

/-- C8 counterexample: on the AMD path, a leaf-`0x80000005` result whose
`ecx` has a zero top byte but the non-zero line-size byte `0x40` decodes
an L1-data record with `size = 0` and `line_size = 0x40` — neither fully
populated nor the zero sentinel. -/
theorem C8_partial_record_counterexample :
    ¬((systemModel ⟨⟨0, 0x68747541, 0x444d4163, 0x69746e65⟩, ⟨0, 0, 0x40, 0x40⟩,
        ⟨0, 0, 0, 0⟩, ⟨0, 0, 0, 0⟩, ⟨0, 0, 0, 0⟩, ⟨0, 0, 0, 0⟩,
        []⟩).caches.l1_cache_data = ⟨0, 0⟩ ∨
      (0 < (systemModel ⟨⟨0, 0x68747541, 0x444d4163, 0x69746e65⟩, ⟨0, 0, 0x40, 0x40⟩,
        ⟨0, 0, 0, 0⟩, ⟨0, 0, 0, 0⟩, ⟨0, 0, 0, 0⟩, ⟨0, 0, 0, 0⟩,
        []⟩).caches.l1_cache_data.size ∧
       0 < (systemModel ⟨⟨0, 0x68747541, 0x444d4163, 0x69746e65⟩, ⟨0, 0, 0x40, 0x40⟩,
        ⟨0, 0, 0, 0⟩, ⟨0, 0, 0, 0⟩, ⟨0, 0, 0, 0⟩, ⟨0, 0, 0, 0⟩,
        []⟩).caches.l1_cache_data.line_size)) := by
  decide

/-- C8 (amended): what the code guarantees instead: on the Intel path
every slot is either the zero sentinel or has a positive line size (an
invariant of the whole walk), and on the Unknown path all four slots are
the zero sentinel; a slot with exactly one field zero can occur on the
AMD path (and, for the size field, on the Intel path). -/
theorem C8_population_invariant :
    (∀ (rs : List RawQueryResult) (s : CacheSet), goodSet s → goodSet (intelWalk rs s)) ∧
    (∀ qp : QueryPort, (systemModel qp).vendor = Vendor.Unknown →
      (systemModel qp).caches = initCacheSet) := by
  constructor
  · intro rs
    induction rs with
    | nil => intro s hs; exact hs
    | cons r rest ih =>
      intro s hs
      simp only [intelWalk]
      split
      · exact hs
      · refine ih _ ?_
        obtain ⟨h1, h2, h3, h4⟩ := hs
        simp only [intelCommit]
        split_ifs
        · exact ⟨Or.inr (Nat.succ_pos _), h2, h3, h4⟩
        · exact ⟨h1, Or.inr (Nat.succ_pos _), h3, h4⟩
        · exact ⟨h1, h2, Or.inr (Nat.succ_pos _), h4⟩
        · exact ⟨h1, h2, h3, Or.inr (Nat.succ_pos _)⟩
        · exact ⟨h1, h2, h3, h4⟩
  · intro qp h
    have h2 : decodeVendor qp.leaf0.ebx qp.leaf0.edx qp.leaf0.ecx = Vendor.Unknown := h
    unfold systemModel
    rw [h2]

/-- Witness for C8 (amended) on a two-record Intel walk and the all-zero
query port. -/
theorem C8_population_invariant_witness :
    goodSet (intelWalk [⟨33, 0, 0, 0⟩, ⟨0, 0, 0, 0⟩] initCacheSet) ∧
    (systemModel ⟨⟨0, 0, 0, 0⟩, ⟨0, 0, 0, 0⟩, ⟨0, 0, 0, 0⟩, ⟨0, 0, 0, 0⟩,
      ⟨0, 0, 0, 0⟩, ⟨0, 0, 0, 0⟩, []⟩).caches = initCacheSet :=
  ⟨C8_population_invariant.1 _ initCacheSet
      ⟨Or.inl rfl, Or.inl rfl, Or.inl rfl, Or.inl rfl⟩,
   C8_population_invariant.2 _ (by decide)⟩

theorem foldl_physical (rs : List TopologyRecord) : ∀ s : TopoState,
    s.physical_cores < u32Mod →
    (List.foldl topoStep s rs).physical_cores =
      (s.physical_cores + coreCount rs) % u32Mod := by
  induction rs with
  | nil =>
    intro s h
    simp only [List.foldl, coreCount, Nat.add_zero]
    exact (Nat.mod_eq_of_lt h).symm
  | cons r rest ih =>
    intro s h
    rw [List.foldl_cons]
    cases r with
    | processorCore =>
      have hb : (topoStep s TopologyRecord.processorCore).physical_cores < u32Mod :=
        Nat.mod_lt _ u32Mod_pos
      rw [ih _ hb]
      show ((s.physical_cores + 1) % u32Mod + coreCount rest) % u32Mod =
        (s.physical_cores + (coreCount rest + 1)) % u32Mod
      rw [Nat.mod_add_mod]
      congr 1
      omega
    | processorPackage m => exact ih _ h
    | other => exact ih _ h
    | cache l t sz ls =>
      have hstep : topoStep s (TopologyRecord.cache l t sz ls) = s ∨
          ∃ c : CacheSet, topoStep s (TopologyRecord.cache l t sz ls) =
            { s with caches := c } := by
        simp only [topoStep]
        rcases cacheSlot l t with _ | k
        · exact Or.inl rfl
        · cases k <;> exact Or.inr ⟨_, rfl⟩
      rcases hstep with hstep | ⟨c, hstep⟩
      · rw [hstep]
        exact ih _ h
      · rw [hstep]
        exact ih _ h

theorem foldl_logical (rs : List TopologyRecord) : ∀ s : TopoState,
    s.logical_cores < u64Mod →
    (List.foldl topoStep s rs).logical_cores =
      (s.logical_cores + popSum rs) % u64Mod := by
  induction rs with
  | nil =>
    intro s h
    simp only [List.foldl, popSum, Nat.add_zero]
    exact (Nat.mod_eq_of_lt h).symm
  | cons r rest ih =>
    intro s h
    rw [List.foldl_cons]
    cases r with
    | processorPackage m =>
      have hb : (topoStep s (TopologyRecord.processorPackage m)).logical_cores < u64Mod :=
        Nat.mod_lt _ (by norm_num [u64Mod])
      rw [ih _ hb]
      show ((s.logical_cores + popCount m) % u64Mod + popSum rest) % u64Mod =
        (s.logical_cores + (popCount m + popSum rest)) % u64Mod
      rw [Nat.mod_add_mod]
      congr 1
      omega
    | processorCore => exact ih _ h
    | other => exact ih _ h
    | cache l t sz ls =>
      have hstep : topoStep s (TopologyRecord.cache l t sz ls) = s ∨
          ∃ c : CacheSet, topoStep s (TopologyRecord.cache l t sz ls) =
            { s with caches := c } := by
        simp only [topoStep]
        rcases cacheSlot l t with _ | k
        · exact Or.inl rfl
        · cases k <;> exact Or.inr ⟨_, rfl⟩
      rcases hstep with hstep | ⟨c, hstep⟩
      · rw [hstep]
        exact ih _ h
      · rw [hstep]
        exact ih _ h

theorem foldl_slot (k : Slot) (rs : List TopologyRecord) : ∀ s : TopoState,
    (slotOf k s.caches).size < u32Mod →
    slotOf k (List.foldl topoStep s rs).caches =
      ⟨((slotOf k s.caches).size + sumSlot k rs) % u32Mod,
        lastLine k (slotOf k s.caches).line_size rs⟩ := by
  induction rs with
  | nil =>
    intro s h
    simp only [List.foldl, sumSlot, lastLine, Nat.add_zero, Nat.mod_eq_of_lt h]
  | cons r rest ih =>
    intro s h
    rw [List.foldl_cons]
    cases r with
    | processorCore => exact ih _ h
    | processorPackage m => exact ih _ h
    | other => exact ih _ h
    | cache l t sz ls =>
      rcases hs : cacheSlot l t with _ | k'
      · have hstep : topoStep s (TopologyRecord.cache l t sz ls) = s := by
          simp [topoStep, hs]
        rw [hstep]
        simp only [sumSlot, lastLine, hs]
        rw [if_neg (show ¬(none : Option Slot) = some k by simp),
          if_neg (show ¬(none : Option Slot) = some k by simp), Nat.zero_add]
        exact ih _ h
      · by_cases hk : k' = k
        · subst hk
          have hstep : slotOf k' (topoStep s (TopologyRecord.cache l t sz ls)).caches =
              ⟨((slotOf k' s.caches).size + sz) % u32Mod, ls⟩ := by
            cases k' <;> simp [topoStep, hs, slotOf]
          have hb : (slotOf k' (topoStep s (TopologyRecord.cache l t sz ls)).caches).size
              < u32Mod := by
            rw [hstep]
            exact Nat.mod_lt _ u32Mod_pos
          rw [ih _ hb, hstep]
          simp only [sumSlot, lastLine, hs]
          rw [if_pos trivial, if_pos trivial, Nat.mod_add_mod, Nat.add_assoc]
        · have hstep : slotOf k (topoStep s (TopologyRecord.cache l t sz ls)).caches =
              slotOf k s.caches := by
            cases k <;> cases k' <;>
              first
                | exact absurd rfl hk
                | simp [topoStep, hs, slotOf]
          have hb : (slotOf k (topoStep s (TopologyRecord.cache l t sz ls)).caches).size
              < u32Mod := by
            rw [hstep]
            exact h
          rw [ih _ hb, hstep]
          simp only [sumSlot, lastLine, hs, Option.some.injEq]
          rw [if_neg hk, if_neg hk, Nat.zero_add]

/-- C4: the normalizer walks the record list once, counting a physical
core per `ProcessorCore` record, accumulating package-mask popcounts into
the logical count, summing cache sizes into the matching slot with
last-seen-wins line sizes, and finally divides the L1-instruction,
L1-data and L2 totals (not L3) by the physical-core count; in particular
two cores plus two 32 KiB L1-instruction cache records normalize to two
physical cores with a 32 KiB per-core L1-instruction size. -/
theorem C4_topology_normalizer :
    (∀ rs : List TopologyRecord, coreCount rs % u32Mod ≠ 0 →
      normalizeTopology rs = some
        { physical_cores := coreCount rs % u32Mod
          logical_cores := popSum rs % u64Mod
          caches :=
            { l1_cache_data := ⟨(sumSlot Slot.l1d rs % u32Mod) / (coreCount rs % u32Mod),
                lastLine Slot.l1d 0 rs⟩
              l1_cache_instruction :=
                ⟨(sumSlot Slot.l1i rs % u32Mod) / (coreCount rs % u32Mod),
                  lastLine Slot.l1i 0 rs⟩
              l2_cache := ⟨(sumSlot Slot.l2 rs % u32Mod) / (coreCount rs % u32Mod),
                lastLine Slot.l2 0 rs⟩
              l3_cache := ⟨sumSlot Slot.l3 rs % u32Mod, lastLine Slot.l3 0 rs⟩ } }) ∧
    normalizeTopology
        [TopologyRecord.processorCore, TopologyRecord.processorCore,
         TopologyRecord.cache 1 WinCacheType.instruction 32768 64,
         TopologyRecord.cache 1 WinCacheType.instruction 32768 64] =
      some ⟨2, 0, { initCacheSet with l1_cache_instruction := ⟨32768, 64⟩ }⟩ := by
  constructor
  · intro rs h
    have hp : (List.foldl topoStep initTopoState rs).physical_cores =
        coreCount rs % u32Mod := by
      rw [foldl_physical rs initTopoState (by decide),
        show initTopoState.physical_cores = 0 from rfl, Nat.zero_add]
    have hl : (List.foldl topoStep initTopoState rs).logical_cores =
        popSum rs % u64Mod := by
      rw [foldl_logical rs initTopoState (by decide),
        show initTopoState.logical_cores = 0 from rfl, Nat.zero_add]
    have h1d : (List.foldl topoStep initTopoState rs).caches.l1_cache_data =
        ⟨sumSlot Slot.l1d rs % u32Mod, lastLine Slot.l1d 0 rs⟩ := by
      have hx := foldl_slot Slot.l1d rs initTopoState (by decide)
      simpa [slotOf, initTopoState, initCacheSet] using hx
    have h1i : (List.foldl topoStep initTopoState rs).caches.l1_cache_instruction =
        ⟨sumSlot Slot.l1i rs % u32Mod, lastLine Slot.l1i 0 rs⟩ := by
      have hx := foldl_slot Slot.l1i rs initTopoState (by decide)
      simpa [slotOf, initTopoState, initCacheSet] using hx
    have h2 : (List.foldl topoStep initTopoState rs).caches.l2_cache =
        ⟨sumSlot Slot.l2 rs % u32Mod, lastLine Slot.l2 0 rs⟩ := by
      have hx := foldl_slot Slot.l2 rs initTopoState (by decide)
      simpa [slotOf, initTopoState, initCacheSet] using hx
    have h3 : (List.foldl topoStep initTopoState rs).caches.l3_cache =
        ⟨sumSlot Slot.l3 rs % u32Mod, lastLine Slot.l3 0 rs⟩ := by
      have hx := foldl_slot Slot.l3 rs initTopoState (by decide)
      simpa [slotOf, initTopoState, initCacheSet] using hx
    simp only [normalizeTopology, topoWalk, hp, hl, h1d, h1i, h2, h3]
    rw [if_neg h]
  · decide

/-- Witness for C4 at the two-core, two-record list of the claim,
instantiating the general characterization. -/
theorem C4_topology_normalizer_witness :
    normalizeTopology
        [TopologyRecord.processorCore, TopologyRecord.processorCore,
         TopologyRecord.cache 1 WinCacheType.instruction 32768 64,
         TopologyRecord.cache 1 WinCacheType.instruction 32768 64] =
      some
        { physical_cores :=
            coreCount
              [TopologyRecord.processorCore, TopologyRecord.processorCore,
               TopologyRecord.cache 1 WinCacheType.instruction 32768 64,
               TopologyRecord.cache 1 WinCacheType.instruction 32768 64] % u32Mod
          logical_cores :=
            popSum
              [TopologyRecord.processorCore, TopologyRecord.processorCore,
               TopologyRecord.cache 1 WinCacheType.instruction 32768 64,
               TopologyRecord.cache 1 WinCacheType.instruction 32768 64] % u64Mod
          caches :=
            { l1_cache_data :=
                ⟨(sumSlot Slot.l1d
                      [TopologyRecord.processorCore, TopologyRecord.processorCore,
                       TopologyRecord.cache 1 WinCacheType.instruction 32768 64,
                       TopologyRecord.cache 1 WinCacheType.instruction 32768 64] % u32Mod) /
                    (coreCount
                      [TopologyRecord.processorCore, TopologyRecord.processorCore,
                       TopologyRecord.cache 1 WinCacheType.instruction 32768 64,
                       TopologyRecord.cache 1 WinCacheType.instruction 32768 64] % u32Mod),
                  lastLine Slot.l1d 0
                    [TopologyRecord.processorCore, TopologyRecord.processorCore,
                     TopologyRecord.cache 1 WinCacheType.instruction 32768 64,
                     TopologyRecord.cache 1 WinCacheType.instruction 32768 64]⟩
              l1_cache_instruction :=
                ⟨(sumSlot Slot.l1i
                      [TopologyRecord.processorCore, TopologyRecord.processorCore,
                       TopologyRecord.cache 1 WinCacheType.instruction 32768 64,
                       TopologyRecord.cache 1 WinCacheType.instruction 32768 64] % u32Mod) /
                    (coreCount
                      [TopologyRecord.processorCore, TopologyRecord.processorCore,
                       TopologyRecord.cache 1 WinCacheType.instruction 32768 64,
                       TopologyRecord.cache 1 WinCacheType.instruction 32768 64] % u32Mod),
                  lastLine Slot.l1i 0
                    [TopologyRecord.processorCore, TopologyRecord.processorCore,
                     TopologyRecord.cache 1 WinCacheType.instruction 32768 64,
                     TopologyRecord.cache 1 WinCacheType.instruction 32768 64]⟩
              l2_cache :=
                ⟨(sumSlot Slot.l2
                      [TopologyRecord.processorCore, TopologyRecord.processorCore,
                       TopologyRecord.cache 1 WinCacheType.instruction 32768 64,
                       TopologyRecord.cache 1 WinCacheType.instruction 32768 64] % u32Mod) /
                    (coreCount
                      [TopologyRecord.processorCore, TopologyRecord.processorCore,
                       TopologyRecord.cache 1 WinCacheType.instruction 32768 64,
                       TopologyRecord.cache 1 WinCacheType.instruction 32768 64] % u32Mod),
                  lastLine Slot.l2 0
                    [TopologyRecord.processorCore, TopologyRecord.processorCore,
                     TopologyRecord.cache 1 WinCacheType.instruction 32768 64,
                     TopologyRecord.cache 1 WinCacheType.instruction 32768 64]⟩
              l3_cache :=
                ⟨sumSlot Slot.l3
                    [TopologyRecord.processorCore, TopologyRecord.processorCore,
                     TopologyRecord.cache 1 WinCacheType.instruction 32768 64,
                     TopologyRecord.cache 1 WinCacheType.instruction 32768 64] % u32Mod,
                  lastLine Slot.l3 0
                    [TopologyRecord.processorCore, TopologyRecord.processorCore,
                     TopologyRecord.cache 1 WinCacheType.instruction 32768 64,
                     TopologyRecord.cache 1 WinCacheType.instruction 32768 64]⟩ } } :=
  C4_topology_normalizer.1
    [TopologyRecord.processorCore, TopologyRecord.processorCore,
     TopologyRecord.cache 1 WinCacheType.instruction 32768 64,
     TopologyRecord.cache 1 WinCacheType.instruction 32768 64] (by decide)

/-- C9 counterexample: when the OS size query reports a byte length that
is not a multiple of the record stride, the Windows entry aborts on its
`assert_eq!(length % info_size, 0)` even though a physical core was
found, so the normalizer division is not the cause and no bit-field
request is involved: a third abort path exists. -/
theorem C9_length_assert_counterexample :
    windowsSystem 1 32 [TopologyRecord.processorCore] = none ∧
    normalizeTopology [TopologyRecord.processorCore] = some ⟨1, 0, initCacheSet⟩ := by
  decide

/-- C9 (amended): the discovery path aborts exactly under the buffer
length-divisibility assertion or the zero-physical-core division (the
out-of-range bit-field request remains a stated fatal condition of the
contract, but under the embedded release semantics `extract_bits` itself
is total); every other input yields a defined result. -/
theorem C9_abort_characterization :
    ∀ (length infoSize : Nat) (rs : List TopologyRecord),
      windowsSystem length infoSize rs = none ↔
        (length % infoSize ≠ 0 ∨ coreCount rs % u32Mod = 0) := by
  intro length infoSize rs
  unfold windowsSystem
  by_cases hl : length % infoSize = 0
  · rw [if_pos hl]
    have hp : (List.foldl topoStep initTopoState rs).physical_cores =
        coreCount rs % u32Mod := by
      rw [foldl_physical rs initTopoState (by decide),
        show initTopoState.physical_cores = 0 from rfl, Nat.zero_add]
    simp only [normalizeTopology, topoWalk, hp]
    by_cases hc : coreCount rs % u32Mod = 0
    · rw [if_pos hc]
      simp [hl, hc]
    · rw [if_neg hc]
      simp [hl, hc]
  · rw [if_neg hl]
    simp [hl]
